import Mathlib

/-!
Verification of the onmap package (dchest/onmap): coordinate-to-pixel Mercator
projection, pin draw ordering, bounds tracking and crop resolution, as
implemented by `MapPinsProjection` in onmap.go.

Modelling conventions:
- Go `int` values are modelled as `Int` (no overflow occurs in the modelled
  arithmetic, all quantities are tiny compared to 2^63).
- Go float64 arithmetic in the projection is modelled over `ℝ`; `math.Round`
  (round half away from zero) is `goRound`.
- The one float64 expression in the crop path,
  `int((float64(MinHeight) / float64(MinWidth)) * float64(w))`, is modelled by
  exact rational arithmetic followed by Go's truncating int conversion, which
  for the exact value equals `Int.tdiv (MinHeight * w) MinWidth`.
- Go integer division truncates toward zero; every `/` appearing in the
  modelled crop code divides a non-negative value by 2, where Lean's `Int`
  division agrees with Go's.
-/

/-- A pixel point on the map; image.Point in the source. -/
structure Point where
  x : Int
  y : Int
deriving DecidableEq, Repr

/-- A pixel rectangle given by its corners, image.Rect(minX, minY, maxX, maxY)
in the source. -/
structure Rect where
  minX : Int
  minY : Int
  maxX : Int
  maxY : Int
deriving DecidableEq, Repr

/-- CropOption from onmap.go (lines 357-372): margin `bound`, minimum output
width and height, and the aspect-ratio flag. -/
structure CropOption where
  bound : Int
  minWidth : Int
  minHeight : Int
  preserveRatio : Bool
deriving DecidableEq, Repr

/-- A pin part image is only ever used through its bounds: width `w` and
height `h` (pin.Bounds().Dx(), pin.Bounds().Dy()). -/
structure PinPart where
  w : Int
  h : Int
deriving DecidableEq, Repr

/-- Coord from onmap.go: decimal latitude and longitude, float64 modelled
as real numbers. -/
structure Coord where
  lat : ℝ
  long : ℝ

/-- Go math.Round: the nearest integer, rounding half away from zero. -/
noncomputable def goRound (x : ℝ) : ℤ :=
  if 0 ≤ x then ⌊x + 1 / 2⌋ else ⌈x - 1 / 2⌉

/-- latRad from mercatorProjection (onmap.go line 340): lat * π / 180. -/
noncomputable def mercatorLatRad (lat : ℝ) : ℝ :=
  lat * Real.pi / 180

/-- n from mercatorProjection (onmap.go line 344):
log(tan(π/4 + latRad/2)). -/
noncomputable def mercatorN (lat : ℝ) : ℝ :=
  Real.log (Real.tan (Real.pi / 4 + mercatorLatRad lat / 2))

/-- mercatorProjection.Convert (onmap.go lines 348-354):
fx = (long + 180) * (mw / 360), fy = mh/2 - mw * n / (2π), both rounded. -/
noncomputable def mercatorConvert (c : Coord) (mapWidth mapHeight : Int) : Point :=
  let mw : ℝ := mapWidth
  let mh : ℝ := mapHeight
  let fx := (c.long + 180) * (mw / 360)
  let fy := mh / 2 - mw * mercatorN c.lat / (2 * Real.pi)
  ⟨goRound fx, goRound fy⟩

/-- Written from the spec text for the projection contract, for comparison
with `mercatorConvert`: x = round((longitude + 180) × mapWidth / 360). -/
noncomputable def mercatorXSpec (long : ℝ) (mapWidth : Int) : ℤ :=
  goRound ((long + 180) * (mapWidth : ℝ) / 360)

/-- Written from the spec text for the projection contract, for comparison
with `mercatorConvert`: y = round(mapHeight/2 − mapWidth × n / (2π)) with
n = ln(tan(π/4 + (latitude × π/180)/2)). -/
noncomputable def mercatorYSpec (lat : ℝ) (mapWidth mapHeight : Int) : ℤ :=
  goRound ((mapHeight : ℝ) / 2 -
    (mapWidth : ℝ) * Real.log (Real.tan (Real.pi / 4 + lat * Real.pi / 180 / 2)) /
      (2 * Real.pi))

/-- The sort key order used by the draw-order sort: ascending pixel Y. -/
def pinLE (p q : Point) : Prop := p.y ≤ q.y

instance : DecidableRel pinLE := fun p q => inferInstanceAs (Decidable (p.y ≤ q.y))

instance : IsTotal Point pinLE := ⟨fun a b => Int.le_total a.y b.y⟩

instance : IsTrans Point pinLE := ⟨fun _ _ _ h1 h2 => Int.le_trans h1 h2⟩

/-- The sort at onmap.go lines 397-399: sort.Slice with comparator
cs[i].Y < cs[j].Y. Go's sort.Slice runs plain insertion sort on short
slices (and any stable realisation of this comparator is the stable sort by
the key Y), modelled here as insertion sort with the non-strict key order,
which keeps input order among equal keys exactly as Go's insertion sort does. -/
def sortPins (pts : List Point) : List Point :=
  List.insertionSort pinLE pts

/-- The pin-part drawing loop at onmap.go lines 407-415: the outer loop runs
over pin parts, the inner loop over the sorted points, so the emitted draw
events are grouped by part. -/
def drawOrder (parts : List PinPart) (pts : List Point) : List (PinPart × Point) :=
  parts.flatMap (fun p => pts.map (fun c => (p, c)))

/-- The destination rectangle of one draw event (onmap.go line 412):
image.Rect(c.X-halfw, c.Y-h, c.X+halfw, c.Y) with halfw = Dx/2. -/
def pinDrawRect (p : PinPart) (c : Point) : Rect :=
  ⟨c.x - p.w / 2, c.y - p.h, c.x + p.w / 2, c.y⟩

/-- The min and max loop at onmap.go lines 417-435: fold the comparisons over
the points starting from minX = mapWidth, minY = mapHeight, maxX = maxY = 0. -/
def boundsOf (pts : List Point) (mapWidth mapHeight : Int) : Rect :=
  pts.foldl
    (fun r c =>
      ⟨if c.x < r.minX then c.x else r.minX,
       if c.y < r.minY then c.y else r.minY,
       if c.x > r.maxX then c.x else r.maxX,
       if c.y > r.maxY then c.y else r.maxY⟩)
    ⟨mapWidth, mapHeight, 0, 0⟩

/-- The effective minimum height (onmap.go lines 471-478): when preserveRatio
is set, int((float64(MinHeight)/float64(MinWidth)) * float64(w)), then raised
to at least MinHeight. The float64 expression is modelled by its exact value
truncated toward zero, Int.tdiv (MinHeight * w) MinWidth. -/
def effMinHeight (c : CropOption) (w : Int) : Int :=
  let m := if c.preserveRatio then Int.tdiv (c.minHeight * w) c.minWidth else 0
  if m < c.minHeight then c.minHeight else m

/-- The symmetric expansion used for both axes (onmap.go lines 459-469 and
480-490): grow [lo, hi] to size `t`, half the deficit on each side with Go
integer division, push a low-side overflow to the high side, clamp the high
side at `limit`. -/
def expandAxis (lo hi t limit : Int) : Int × Int :=
  if hi - lo < t then
    let lo1 := lo - (t - (hi - lo)) / 2
    let add : Int := if lo1 < 0 then -lo1 else 0
    let lo2 := if lo1 < 0 then 0 else lo1
    let hi1 := hi + (t - (hi - lo)) / 2 + add
    let hi2 := if hi1 > limit then limit else hi1
    (lo2, hi2)
  else (lo, hi)

/-- The crop computation of MapPinsProjection (onmap.go lines 440-492),
applied to the bounds rectangle when crop is non-nil. Note the margin step
reproduces the source exactly, including line 455, where the clamp of the
expanded maxY assigns its result into maxX and leaves maxY unclamped. -/
def resolveCrop (r : Rect) (c : CropOption) (mapWidth mapHeight : Int) : Rect :=
  let minX := if r.minX - c.bound < 0 then 0 else r.minX - c.bound
  let minY := if r.minY - c.bound < 0 then 0 else r.minY - c.bound
  let maxX0 := if r.maxX + c.bound > mapWidth then mapWidth else r.maxX + c.bound
  let maxY := r.maxY + c.bound
  let maxX := if maxY > mapHeight then mapHeight else maxX0
  let px := expandAxis minX maxX c.minWidth mapWidth
  let py := expandAxis minY maxY (effMinHeight c (px.2 - px.1)) mapHeight
  ⟨px.1, py.1, px.2, py.2⟩

/-- Everything observable about one MapPinsProjection call: output image
dimensions, the emitted draw events in order, the rectangle passed to
SubImage (none when crop is nil), and the final values of the caller-owned
inputs, which the function reads but never writes. -/
structure MapPinsResult where
  outWidth : Int
  outHeight : Int
  draws : List (PinPart × Point)
  cropped : Option Rect
  coordsAfter : List Coord
  mapAfter : Rect
  partsAfter : List PinPart

/-- MapPinsProjection (onmap.go lines 384-493). The worldMap argument enters
only through its bounds rectangle. The projected points are written into the
freshly allocated slice cs (make at line 388), so coords is never written;
the output image is a new RGBA of the base map's Dx × Dy. -/
def mapPinsProjection (proj : Coord → Int → Int → Point) (worldMap : Rect)
    (pinParts : List PinPart) (coords : List Coord) (crop : Option CropOption) :
    MapPinsResult :=
  let mapWidth := worldMap.maxX
  let mapHeight := worldMap.maxY
  let cs := coords.map (fun c => proj c mapWidth mapHeight)
  let cs := sortPins cs
  let outW := worldMap.maxX - worldMap.minX
  let outH := worldMap.maxY - worldMap.minY
  let draws := drawOrder pinParts cs
  let bounds := boundsOf cs mapWidth mapHeight
  match crop with
  | none => ⟨outW, outH, draws, none, coords, worldMap, pinParts⟩
  | some c =>
      ⟨outW, outH, draws, some (resolveCrop bounds c mapWidth mapHeight),
       coords, worldMap, pinParts⟩

/-! Helper lemmas. -/

/-- Rounding half away from zero is monotone. -/
theorem goRound_mono {x y : ℝ} (h : x ≤ y) : goRound x ≤ goRound y := by
  unfold goRound
  split_ifs with hx hy
  · exact Int.floor_mono (by linarith)
  · exact absurd (le_trans hx h) hy
  · have h1 : (⌈x - 1 / 2⌉ : ℤ) ≤ 0 := by
      apply Int.ceil_le.mpr
      push_neg at hx
      norm_num
      linarith
    have h2 : (0 : ℤ) ≤ ⌊y + 1 / 2⌋ := Int.floor_nonneg.mpr (by linarith)
    omega
  · exact Int.ceil_mono (by linarith)

/-- The symmetric expansion never moves the low side below 0 when it starts
at or above 0. -/
theorem expandAxis_fst_nonneg (lo hi t limit : Int) (h : 0 ≤ lo) :
    0 ≤ (expandAxis lo hi t limit).1 := by
  simp only [expandAxis]
  split_ifs <;> omega

/-- The symmetric expansion reaches size at least t - 1 unless the high side
is clamped at the limit. -/
theorem expandAxis_size (lo hi t limit : Int) :
    t - 1 ≤ (expandAxis lo hi t limit).2 - (expandAxis lo hi t limit).1 ∨
      (expandAxis lo hi t limit).2 = limit := by
  simp only [expandAxis]
  split_ifs <;> omega

/-- The symmetric expansion is the identity when the interval already has
size t. -/
theorem expandAxis_id (lo hi t limit : Int) (h : t ≤ hi - lo) :
    expandAxis lo hi t limit = (lo, hi) := by
  simp only [expandAxis, if_neg (by omega : ¬hi - lo < t)]

/-- The resolved rectangle always has minX ≥ 0. -/
theorem resolveCrop_minX_nonneg (r : Rect) (c : CropOption) (W H : Int) :
    0 ≤ (resolveCrop r c W H).minX := by
  simp only [resolveCrop]
  exact expandAxis_fst_nonneg _ _ _ _ (by split_ifs <;> omega)

/-- The resolved rectangle always has minY ≥ 0. -/
theorem resolveCrop_minY_nonneg (r : Rect) (c : CropOption) (W H : Int) :
    0 ≤ (resolveCrop r c W H).minY := by
  simp only [resolveCrop]
  exact expandAxis_fst_nonneg _ _ _ _ (by split_ifs <;> omega)

/-- A rectangle within the map that already meets the minimum width and its
effective minimum height is a fixed point of the resolver when the margin is
zero. -/
theorem resolveCrop_fixed (r1 : Rect) (c : CropOption) (W H : Int)
    (hb : c.bound = 0) (hx0 : 0 ≤ r1.minX) (hy0 : 0 ≤ r1.minY)
    (hxW : r1.maxX ≤ W) (hyH : r1.maxY ≤ H)
    (hw : c.minWidth ≤ r1.maxX - r1.minX)
    (hh : effMinHeight c (r1.maxX - r1.minX) ≤ r1.maxY - r1.minY) :
    resolveCrop r1 c W H = r1 := by
  simp only [resolveCrop, hb, sub_zero, add_zero]
  rw [if_neg (by omega : ¬r1.minX < 0), if_neg (by omega : ¬r1.minY < 0),
    if_neg (by omega : ¬r1.maxX > W), if_neg (by omega : ¬r1.maxY > H),
    expandAxis_id _ _ _ _ (by omega)]
  rw [expandAxis_id _ _ _ _ (by simpa using hh)]

/-! Claim theorems. -/

/-- C1: evaluation of the crop computation at a failing input. For the single
projected point (50, 95) on a 100 x 100 map with Bound = 10, the margin step
pushes maxY to 105 > mapHeight, but the source (onmap.go line 455) assigns
the clamp into maxX, so the rectangle passed to SubImage is
(40, 85, 100, 105), which is not contained in [0, 100] x [0, 100]: the claim
that each coordinate is clamped to its own axis fails on the code. -/
theorem c1_maxY_clamp_assigned_into_maxX :
    (mapPinsProjection (fun _ _ _ => ⟨50, 95⟩) ⟨0, 0, 100, 100⟩ [] [⟨0, 0⟩]
        (some ⟨10, 1, 1, false⟩)).cropped = some ⟨40, 85, 100, 105⟩ ∧
      (100 : Int) < (⟨40, 85, 100, 105⟩ : Rect).maxY := by
  constructor
  · rfl
  · decide

/-- C2 counterexample: the claim that the final crop width is at least
minWidth whenever minWidth ≤ mapWidth fails on the code. A single point at
(500, 500) on a 1000 x 1000 map with Bound = 0 and MinWidth = 5 yields the
rectangle (498, 500, 502, 500) of width 4 < 5 (the odd deficit loses one
pixel to integer halving); the same rectangle has height 0 < MinHeight = 1.
A second input shows a width of 6 < MinWidth - 1 = 9 when the rightward
expansion is clamped at the map edge. -/
theorem c2_min_width_violated :
    resolveCrop (boundsOf [⟨500, 500⟩] 1000 1000) ⟨0, 5, 1, false⟩ 1000 1000 =
        ⟨498, 500, 502, 500⟩ ∧
      (502 - 498 < (5 : Int)) ∧ ((5 : Int) ≤ 1000) ∧
      resolveCrop ⟨8, 0, 9, 5⟩ ⟨0, 10, 1, false⟩ 10 10 = ⟨4, 0, 10, 5⟩ := by
  refine ⟨by decide, by decide, by decide, by decide⟩

/-- C2 amended: for every input rectangle, CropOption and map size, the
resolved width is at least minWidth - 1 unless the expanded maxX was clamped
at mapWidth, and the resolved height is at least the effective minimum
height (computed from the resolved width) minus 1 unless the expanded maxY
was clamped at mapHeight. -/
theorem c2_size_lower_bound (r : Rect) (c : CropOption) (W H : Int) :
    (c.minWidth - 1 ≤ (resolveCrop r c W H).maxX - (resolveCrop r c W H).minX ∨
        (resolveCrop r c W H).maxX = W) ∧
      (effMinHeight c ((resolveCrop r c W H).maxX - (resolveCrop r c W H).minX) - 1 ≤
          (resolveCrop r c W H).maxY - (resolveCrop r c W H).minY ∨
        (resolveCrop r c W H).maxY = H) := by
  simp only [resolveCrop]
  exact ⟨expandAxis_size _ _ _ _, expandAxis_size _ _ _ _⟩

/-- C3 counterexample: the sort used for the draw order (onmap.go lines
397-399) compares only Y, so two points with equal pixel Y keep their input
order; the point with x = 5 is drawn before the point with x = 3, against
the claimed ascending-X tie-break. -/
theorem c3_no_x_tie_break :
    sortPins [⟨5, 0⟩, ⟨3, 0⟩] = [⟨5, 0⟩, ⟨3, 0⟩] ∧
      sortPins [⟨5, 0⟩, ⟨3, 0⟩] ≠ [⟨3, 0⟩, ⟨5, 0⟩] ∧
      drawOrder [⟨2, 4⟩] (sortPins [⟨5, 0⟩, ⟨3, 0⟩]) =
        [(⟨2, 4⟩, ⟨5, 0⟩), (⟨2, 4⟩, ⟨3, 0⟩)] := by
  refine ⟨by decide, by decide, by decide⟩

/-- C3 amended: the draw order of projected points is sorted by ascending
pixel Y, so for any two points with Y1 < Y2 point 1 precedes point 2 in the
order shared by every pin-part layer; among points with equal Y no X
tie-break is applied (the model keeps input order). -/
theorem c3_draws_sorted_by_y (pts : List Point) :
    List.Sorted pinLE (sortPins pts) :=
  List.sorted_insertionSort pinLE pts

/-- C4: mercatorProjection.Convert computes exactly the spec formulas
x = round((longitude + 180) × mapWidth / 360) and
y = round(mapHeight/2 − mapWidth × ln(tan(π/4 + (latitude·π/180)/2)) / (2π)),
and is total: the equation holds for every coordinate and map size, with no
error case. -/
theorem c4_convert_matches_spec_formulas (c : Coord) (mw mh : Int) :
    mercatorConvert c mw mh = ⟨mercatorXSpec c.long mw, mercatorYSpec c.lat mw mh⟩ := by
  simp only [mercatorConvert, mercatorXSpec, mercatorYSpec, mercatorN, mercatorLatRad]
  congr 2
  ring

/-- C5: with a nil crop, MapPinsProjection returns the full composed image:
no rectangle is passed to SubImage (the crop steps are skipped) and the
output dimensions are the base map's width and height. -/
theorem c5_nil_crop_returns_full_map (proj : Coord → Int → Int → Point)
    (worldMap : Rect) (pinParts : List PinPart) (coords : List Coord) :
    (mapPinsProjection proj worldMap pinParts coords none).cropped = none ∧
      (mapPinsProjection proj worldMap pinParts coords none).outWidth =
        worldMap.maxX - worldMap.minX ∧
      (mapPinsProjection proj worldMap pinParts coords none).outHeight =
        worldMap.maxY - worldMap.minY :=
  ⟨rfl, rfl, rfl⟩

/-- C6 counterexample: the crop resolution is not idempotent. With Bound = 10
on a 1000 x 1000 map, the resolved rectangle of a single point at (500, 500)
is (490, 490, 510, 510), and resolving that rectangle again re-applies the
margin and yields (480, 480, 520, 520). -/
theorem c6_not_idempotent :
    resolveCrop
        (resolveCrop (boundsOf [⟨500, 500⟩] 1000 1000) ⟨10, 1, 1, false⟩ 1000 1000)
        ⟨10, 1, 1, false⟩ 1000 1000 ≠
      resolveCrop (boundsOf [⟨500, 500⟩] 1000 1000) ⟨10, 1, 1, false⟩ 1000 1000 := by
  decide

/-- C6 amended: the resolver is a fixed point on its own output when the
margin is zero and the output needs no further work: if Bound = 0 and the
resolved rectangle lies within the map and already meets the minimum width
and its effective minimum height, resolving it again returns it unchanged.
(With Bound > 0 the margin is re-applied, so idempotence fails in general.) -/
theorem c6_idempotent_zero_bound (r : Rect) (c : CropOption) (W H : Int)
    (hb : c.bound = 0)
    (hxW : (resolveCrop r c W H).maxX ≤ W)
    (hyH : (resolveCrop r c W H).maxY ≤ H)
    (hw : c.minWidth ≤ (resolveCrop r c W H).maxX - (resolveCrop r c W H).minX)
    (hh : effMinHeight c ((resolveCrop r c W H).maxX - (resolveCrop r c W H).minX) ≤
      (resolveCrop r c W H).maxY - (resolveCrop r c W H).minY) :
    resolveCrop (resolveCrop r c W H) c W H = resolveCrop r c W H :=
  resolveCrop_fixed _ c W H hb (resolveCrop_minX_nonneg r c W H)
    (resolveCrop_minY_nonneg r c W H) hxW hyH hw hh

/-- C6 witness: a concrete instance of the amended idempotence, with the
standard-crop ratio 543/640 and PreserveRatio set. -/
theorem c6_idempotent_zero_bound_witness :
    (⟨0, 640, 543, true⟩ : CropOption).bound = 0 ∧
      (resolveCrop ⟨0, 0, 700, 600⟩ ⟨0, 640, 543, true⟩ 1280 1086).maxX ≤ 1280 ∧
      (resolveCrop ⟨0, 0, 700, 600⟩ ⟨0, 640, 543, true⟩ 1280 1086).maxY ≤ 1086 ∧
      (⟨0, 640, 543, true⟩ : CropOption).minWidth ≤
        (resolveCrop ⟨0, 0, 700, 600⟩ ⟨0, 640, 543, true⟩ 1280 1086).maxX -
          (resolveCrop ⟨0, 0, 700, 600⟩ ⟨0, 640, 543, true⟩ 1280 1086).minX ∧
      effMinHeight ⟨0, 640, 543, true⟩
          ((resolveCrop ⟨0, 0, 700, 600⟩ ⟨0, 640, 543, true⟩ 1280 1086).maxX -
            (resolveCrop ⟨0, 0, 700, 600⟩ ⟨0, 640, 543, true⟩ 1280 1086).minX) ≤
        (resolveCrop ⟨0, 0, 700, 600⟩ ⟨0, 640, 543, true⟩ 1280 1086).maxY -
          (resolveCrop ⟨0, 0, 700, 600⟩ ⟨0, 640, 543, true⟩ 1280 1086).minY ∧
      resolveCrop (resolveCrop ⟨0, 0, 700, 600⟩ ⟨0, 640, 543, true⟩ 1280 1086)
          ⟨0, 640, 543, true⟩ 1280 1086 =
        resolveCrop ⟨0, 0, 700, 600⟩ ⟨0, 640, 543, true⟩ 1280 1086 :=
  ⟨by decide, by decide, by decide, by decide, by decide,
    c6_idempotent_zero_bound ⟨0, 0, 700, 600⟩ ⟨0, 640, 543, true⟩ 1280 1086
      (by decide) (by decide) (by decide) (by decide) (by decide)⟩

/-- C7: for a fixed latitude and a (non-negative) map width, the projected
pixel X is monotone in longitude. -/
theorem c7_x_monotone_in_longitude (lat long1 long2 : ℝ) (mw mh : Int)
    (hmw : 0 ≤ mw) (h : long1 < long2) :
    (mercatorConvert ⟨lat, long1⟩ mw mh).x ≤ (mercatorConvert ⟨lat, long2⟩ mw mh).x := by
  simp only [mercatorConvert]
  apply goRound_mono
  have hmw' : (0 : ℝ) ≤ (mw : Int) := by exact_mod_cast hmw
  have h0 : (0 : ℝ) ≤ (mw : ℝ) / 360 := by positivity
  exact mul_le_mul_of_nonneg_right (by linarith) h0

/-- C7 witness: monotonicity applied at latitude 0, map 360 x 180, and
longitudes 0 < 90. -/
theorem c7_x_monotone_in_longitude_witness :
    (0 ≤ (360 : Int)) ∧ ((0 : ℝ) < 90) ∧
      (mercatorConvert ⟨0, 0⟩ 360 180).x ≤ (mercatorConvert ⟨0, 90⟩ 360 180).x :=
  ⟨by decide, by norm_num,
    c7_x_monotone_in_longitude 0 0 90 360 180 (by decide) (by norm_num)⟩

/-- C8: the compositor draws pin parts map-wide per layer: the draw event of
pinParts[i] at the j-th point sits at position i * pts.length + j of the
draw sequence, so every draw of layer i precedes every draw of layer i+1 and
within one layer the points appear in their sorted order. -/
theorem c8_layered_draw_order (parts : List PinPart) (pts : List Point)
    (i j : Nat) (hi : i < parts.length) (hj : j < pts.length) :
    (drawOrder parts pts)[i * pts.length + j]? = some (parts[i], pts[j]) := by
  induction parts generalizing i with
  | nil => exact absurd hi (Nat.not_lt_zero i)
  | cons p ps ih =>
    have hstep : drawOrder (p :: ps) pts =
        pts.map (fun c => (p, c)) ++ drawOrder ps pts := by
      simp [drawOrder]
    cases i with
    | zero =>
      rw [hstep]
      simp only [Nat.zero_mul, Nat.zero_add]
      rw [List.getElem?_append, if_pos (by simpa using hj), List.getElem?_map,
        List.getElem?_eq_getElem hj]
      rfl
    | succ i =>
      rw [hstep]
      have he : (i + 1) * pts.length + j = pts.length + (i * pts.length + j) := by
        ring
      rw [he, List.getElem?_append_right (by simp), List.length_map,
        Nat.add_sub_cancel_left]
      have hi' : i < ps.length := by
        simp only [List.length_cons] at hi
        omega
      rw [ih i hi']
      rfl

/-- C8 witness: with two parts and two points, the draw at flat position
1 * 2 + 0 is the second part at the first point. -/
theorem c8_layered_draw_order_witness :
    ((1 : Nat) < 2) ∧ ((0 : Nat) < 2) ∧
      (drawOrder [⟨1, 1⟩, ⟨2, 2⟩] [⟨0, 0⟩, ⟨7, 7⟩])[1 * 2 + 0]? =
        some (⟨2, 2⟩, ⟨0, 0⟩) :=
  ⟨by decide, by decide,
    c8_layered_draw_order [⟨1, 1⟩, ⟨2, 2⟩] [⟨0, 0⟩, ⟨7, 7⟩] 1 0 (by decide) (by decide)⟩

/-- C9: MapPinsProjection never modifies its inputs: the coords list, the
base map and the pin-part list are returned unchanged (the projection writes
into a freshly allocated slice, and the images are only read). -/
theorem c9_inputs_unmodified (proj : Coord → Int → Int → Point) (worldMap : Rect)
    (pinParts : List PinPart) (coords : List Coord) (crop : Option CropOption) :
    (mapPinsProjection proj worldMap pinParts coords crop).coordsAfter = coords ∧
      (mapPinsProjection proj worldMap pinParts coords crop).mapAfter = worldMap ∧
      (mapPinsProjection proj worldMap pinParts coords crop).partsAfter = pinParts := by
  cases crop <;> exact ⟨rfl, rfl, rfl⟩

/-- C10: in the Mercator projection, pixel X depends only on longitude and
mapWidth (latitude and mapHeight do not enter it), and pixel Y depends only
on latitude, mapWidth and mapHeight (longitude does not enter it). -/
theorem c10_x_ignores_lat_y_ignores_long (lat1 lat2 long1 long2 : ℝ)
    (mw mh1 mh2 : Int) :
    (mercatorConvert ⟨lat1, long1⟩ mw mh1).x = (mercatorConvert ⟨lat2, long1⟩ mw mh2).x ∧
      (mercatorConvert ⟨lat1, long1⟩ mw mh1).y = (mercatorConvert ⟨lat1, long2⟩ mw mh1).y :=
  ⟨rfl, rfl⟩
